import Mathlib

set_option maxHeartbeats 1000000

/-!
Verification of the joker-stream library (`joker/stream/stream.py`), a
line-oriented text-stream pipeline: a `Stream` wraps an underlying file
resource, and a `ShellStream` layers an ordered chain of line transformers
("filters") on top of it.  Each filter maps a line to a transformed line or
to the DROP sentinel (Python `None`), and iteration applies the chain
left-to-right with short-circuit on DROP.

The development below shallowly embeds the data model and operations of the
source module: pure transformer functions become Lean functions on `String`,
the Python `None` sentinel becomes `Option.none`, mutation of the shared
filter list becomes an explicit heap of lists, and the process-wide
resource-ownership bookkeeping of `Stream.open`/`Stream.__exit__` becomes an
explicit state record.
-/

/-- A line transformer: maps a line to a transformed line, or to `none`
(the DROP sentinel, Python `None`), meaning the line is excluded. -/
abbrev LineFilter := String → Option String

/-- Embeds `ShellStream._apply_filters`: apply each attached filter in
attachment order, breaking out of the loop the moment a filter returns
the DROP sentinel. -/
def apply_filters : List LineFilter → String → Option String
  | [], line => some line
  | f :: fs, line =>
    match f line with
    | none => none
    | some l => apply_filters fs l

/-- Embeds the generator `ShellStream._iter_lines`: feed every raw line of
the underlying file through the filter chain and yield it unless dropped. -/
def iter_lines (fs : List LineFilter) : List String → List String
  | [] => []
  | l :: ls =>
    match apply_filters fs l with
    | none => iter_lines fs ls
    | some l2 => l2 :: iter_lines fs ls

/-- Embeds `ShellStream.__iter__`: with a non-empty filter chain iterate the
filtered lines, otherwise fall back to `Stream.__iter__`, which iterates the
raw lines of the underlying file. -/
def shellIter (fs : List LineFilter) (ls : List String) : List String :=
  if fs.isEmpty then ls else iter_lines fs ls

/-! ## Resource registry and ownership (`Stream.open` / `Stream.__exit__`)

Resources are identified by numeric identities (Python `id(...)`); the three
process-wide standard streams get the fixed identities below, and resources
freshly opened by `Stream.open` get identities `3, 4, ...` via a counter. -/

/-- Identity of the process-wide `sys.stdin` resource. -/
def stdinId : Nat := 0

/-- Identity of the process-wide `sys.stdout` resource. -/
def stdoutId : Nat := 1

/-- Identity of the process-wide `sys.stderr` resource. -/
def stderrId : Nat := 2

/-- The first argument of `Stream.open`: either an integer file alias or a
string (a path or a recognized alias token). -/
inductive FileArg where
  | num (n : Nat)
  | str (s : String)
deriving DecidableEq

/-- Embeds the class attribute `Stream._preopened`: the alias table mapping
`(file, mode)` pairs to the already-open process-wide standard streams. -/
def preopened : FileArg → String → Option Nat
  | .num 1, "w" => some stdoutId
  | .num 2, "w" => some stderrId
  | .str "", "r" => some stdinId
  | .str "", "w" => some stdoutId
  | .str "-", "r" => some stdinId
  | .str "-", "w" => some stdoutId
  | .str "<stdin>", "r" => some stdinId
  | .str "<stdout>", "w" => some stdoutId
  | .str "<stderr>", "w" => some stderrId
  | _, _ => none

/-- Process-wide state of the resource registry: `opened` embeds the class
attribute `Stream.opened` (the ownership set of identities of resources this
library itself opened), `nextId` is the allocator for fresh identities, and
`closed` records which resources have been closed so far. -/
structure SysState where
  opened : List Nat
  nextId : Nat
  closed : List Nat
deriving DecidableEq

/-- A stream handle: wraps the identity of one underlying resource
(`self.file` in the source). -/
structure StreamHandle where
  fileId : Nat
deriving DecidableEq

/-- Embeds the classmethod `Stream.open`: an alias-table hit returns a handle
wrapping the shared pre-opened resource and leaves the ownership set alone;
otherwise a brand-new resource is opened and its identity is recorded in the
ownership set. -/
def streamOpen (st : SysState) (file : FileArg) (mode : String) :
    StreamHandle × SysState :=
  match preopened file mode with
  | some fid => (⟨fid⟩, st)
  | none =>
    (⟨st.nextId⟩,
      { st with opened := st.nextId :: st.opened, nextId := st.nextId + 1 })

/-- Embeds `Stream.__exit__`: the underlying resource is closed if and only
if its identity is in the ownership set `opened`. -/
def streamExit (st : SysState) (h : StreamHandle) : SysState :=
  if h.fileId ∈ st.opened then { st with closed := h.fileId :: st.closed }
  else st

/-- Registry states reachable by this library: every identity in the
ownership set was allocated by the counter, so it is distinct from the three
fixed standard-stream identities, and the counter stays past them. -/
def GoodState (st : SysState) : Prop :=
  (∀ i ∈ st.opened, 3 ≤ i) ∧ 3 ≤ st.nextId

instance : DecidablePred GoodState := fun st => by
  unfold GoodState; infer_instance

/-! ## String helpers: Python `str.rstrip` / `str.strip`

These embed the CPython string methods the filters delegate to, on the
character-list view of a string: `rstrip(chars)` removes every trailing
character that occurs in `chars`, `strip(chars)` removes them from both
ends, and `strip()` with no argument removes whitespace (modelled by
`Char.isWhitespace`). -/

/-- Remove every trailing character satisfying `p` from a character list. -/
def rstripList (p : Char → Bool) (l : List Char) : List Char :=
  (l.reverse.dropWhile p).reverse

/-- Remove every leading and trailing character satisfying `p`. -/
def stripList (p : Char → Bool) (l : List Char) : List Char :=
  rstripList p (l.dropWhile p)

/-- Embeds Python `str.rstrip(chars)`: remove every trailing character of
`s` that occurs in `chars`. -/
def pyRstrip (chars : String) (s : String) : String :=
  ⟨rstripList (fun c => chars.toList.contains c) s.toList⟩

/-- Embeds Python `str.strip(chars)` with its optional argument: `none`
(Python `None`) strips whitespace, `some cs` strips the characters of
`cs`, from both ends. -/
def pyStripChars (chars : Option String) (s : String) : String :=
  match chars with
  | none => ⟨stripList Char.isWhitespace s.toList⟩
  | some cs => ⟨stripList (fun c => cs.toList.contains c) s.toList⟩

/-- Embeds Python `str.strip()` with no argument. -/
def pyStrip (s : String) : String := pyStripChars none s

/-- Embeds `os.linesep` on the POSIX platform this library targets. -/
def os_linesep : String := "\n"

/-- Embeds the transformer appended by `ShellStream.snl`:
`lambda s: s.rstrip(os.linesep)`. -/
def snlF : LineFilter := fun s => some (pyRstrip os_linesep s)

/-- Embeds the transformer appended by `ShellStream.nonblank`:
`lambda s: (s.strip() or None)` — the empty string is falsy in Python, so a
blank line becomes the DROP sentinel and a non-blank line becomes its own
stripped content. -/
def nonblankF : LineFilter := fun s =>
  if (pyStrip s).isEmpty then none else some (pyStrip s)

/-! ## Binary-mode query (`Stream.is_binary`) -/

/-- What the embedding needs to know about an underlying file object for the
binary-mode query: its `mode` attribute (`none` when the attribute is
missing; the safe-attribute forwarding of `Stream.__getattr__` then yields
Python `None`), and the outcome of probing it with a zero-length read
(`some b`: the read returned a byte sequence iff `b`; `none`: the read
raised, which `is_binary` swallows). -/
structure FileObj where
  mode : Option String
  probe : Option Bool

/-- Embeds `Stream.is_binary`: if the `mode` attribute is truthy (present and
non-empty) answer whether it contains the binary marker `'b'`; otherwise fall
back to the zero-length-read probe, whose failure leaves the answer
indeterminate (Python `None`, here `none`). -/
def is_binary (f : FileObj) : Option Bool :=
  match f.mode with
  | some m => if m.isEmpty then f.probe else some (m.toList.contains 'b')
  | none => f.probe

/-! ## Split-and-format (`_split_format`)

The string collaborators `str.split` and `str.format` are embedded on
character lists, with a fuel argument (always called with fuel exceeding the
input length) so the functions are structurally recursive and fully
evaluable.  `str.format` is embedded on the fragment the source exercises:
literal text, doubled braces, and explicitly numbered positional fields. -/

/-- Embeds Python `str.split(sep, maxsplit)` with an explicit non-empty
separator: split on each non-overlapping leftmost occurrence of `sep`,
at most `k` times (`none` = unlimited).  `cur` accumulates the current
piece; `fuel` strictly exceeds the remaining input length. -/
def sepSplitAux (sep : List Char) : Nat → Option Nat → List Char → List Char → List (List Char)
  | 0, _, cur, _ => [cur]
  | _ + 1, _, cur, [] => [cur]
  | fuel + 1, k, cur, c :: cs =>
    if k ≠ some 0 ∧ sep.isPrefixOf (c :: cs) then
      cur :: sepSplitAux sep fuel (k.map (· - 1)) [] ((c :: cs).drop sep.length)
    else
      sepSplitAux sep fuel k (cur ++ [c]) cs

/-- Embeds Python `str.split(None, maxsplit)`: skip whitespace runs and cut
out at most `k` whitespace-separated words (`none` = unlimited); once the
split budget is exhausted the rest of the line (leading whitespace removed)
is one final piece. -/
def wsSplitAux : Nat → Option Nat → List Char → List (List Char)
  | 0, _, _ => []
  | _ + 1, _, [] => []
  | fuel + 1, k, c :: cs =>
    if c.isWhitespace then wsSplitAux fuel k cs
    else if k = some 0 then [c :: cs]
    else (c :: cs.takeWhile (fun x => !x.isWhitespace))
      :: wsSplitAux fuel (k.map (· - 1)) (cs.dropWhile (fun x => !x.isWhitespace))

/-- Numeric value of a digit run in a replacement field. -/
def natOfDigits (ds : List Char) : Nat :=
  ds.foldl (fun a c => 10 * a + (c.toNat - 48)) 0

/-- Embeds `fmt.count('{')` from `_split_format`. -/
def braceCount (fmt : String) : Nat := fmt.toList.count '{'

/-- Embeds Python `str.format(*args)` on the numeric-positional fragment:
`\x7b\x7b` and `\x7d\x7d` are literal braces, `\x7bk\x7d` with `k` a digit
run is replaced by positional argument `k` (an out-of-range index is the
IndexError the interpreter raises), any other replacement field is rejected,
and all other characters are copied through. -/
def formatAux (args : List String) : Nat → List Char → Except String (List Char)
  | 0, _ => .error ("format: out of fuel")
  | _ + 1, [] => .ok []
  | fuel + 1, c :: rest =>
    if c = '{' then
      match rest with
      | [] => .error ("Single brace in format template")
      | c2 :: rest2 =>
        if c2 = '{' then
          match formatAux args fuel rest2 with
          | .ok t => .ok ('{' :: t)
          | .error e => .error e
        else
          match (c2 :: rest2).drop ((c2 :: rest2).takeWhile Char.isDigit).length with
          | c3 :: tail =>
            if c3 = '}' ∧ (c2 :: rest2).takeWhile Char.isDigit ≠ [] then
              match args[natOfDigits ((c2 :: rest2).takeWhile Char.isDigit)]? with
              | some a =>
                match formatAux args fuel tail with
                | .ok t => .ok (a.toList ++ t)
                | .error e => .error e
              | none => .error ("IndexError: Replacement index out of range")
            else .error ("format: unsupported replacement field")
          | [] => .error ("format: unterminated replacement field")
    else if c = '}' then
      match rest with
      | c2 :: rest2 =>
        if c2 = '}' then
          match formatAux args fuel rest2 with
          | .ok t => .ok ('}' :: t)
          | .error e => .error e
        else .error ("Single brace in format template")
      | [] => .error ("Single brace in format template")
    else
      match formatAux args fuel rest with
      | .ok t => .ok (c :: t)
      | .error e => .error e

/-- `str.format` on a character list, with sufficient fuel. -/
def formatList (args : List String) (l : List Char) : Except String (List Char) :=
  formatAux args (l.length + 1) l

/-- Embeds the padding step of `_split_format`: extend `parts` with empty
strings when it has fewer than `m` entries. -/
def padParts (parts : List String) (m : Nat) : List String :=
  if m > parts.length then parts ++ List.replicate (m - parts.length) "" else parts

/-- Embeds `line.split(sep, maxsplit)`: whitespace split when `sep` is
Python `None`, else split on the separator, which must be non-empty
(CPython raises `ValueError: empty separator`). -/
def pySplit (line : String) (sep : Option String) (maxsplit : Int) : Except String (List String) :=
  match sep with
  | none =>
    .ok ((wsSplitAux (line.toList.length + 1)
      (if maxsplit < 0 then none else some maxsplit.toNat) line.toList).map (fun l => ⟨l⟩))
  | some sp =>
    if sp.isEmpty then .error ("empty separator")
    else
      .ok ((sepSplitAux sp.toList (line.toList.length + 1)
        (if maxsplit < 0 then none else some maxsplit.toNat) [] line.toList).map (fun l => ⟨l⟩))

/-- Embeds `_split_format` on its plain-split path (`flags=None`; with flags
the splitting is delegated to the regex collaborator `re.split`): split the
line, pad the parts to `max(fmt.count('{'), 8)` entries, and format the
template with the padded parts as positional arguments. -/
def split_format (line fmt : String) (sep : Option String) (maxsplit : Int) :
    Except String String :=
  match pySplit line sep maxsplit with
  | .error e => .error e
  | .ok parts =>
    match formatList (padParts parts (max (braceCount fmt) 8)) fmt.toList with
    | .ok cs => .ok ⟨cs⟩
    | .error e => .error e

/-- The transformer appended by `ShellStream.sf`; a formatting error raised
mid-iteration aborts the Python iteration, which the `Except` level of
`split_format` captures — at the filter level only the successful value is
observed. -/
def sfF (fmt : String) (sep : Option String) (ms : Int) : LineFilter :=
  fun s => (split_format s fmt sep ms).toOption

/-! ## The regex collaborator (`_grep`, `_ungrep`) -/

/-- Interface of a regex match object, the external collaborator consumed by
`_grep`: `grp g` is `mat.group(g)` — `some` captured text, or `none` when
the group did not participate in the match (Python `None`). -/
structure MatchObj where
  grp : Nat → Option String

/-- Python truthiness of the `group` argument of `_grep`: `None` and `0` are
falsy, any other integer is truthy. -/
def groupTruthy : Option Nat → Bool
  | none => false
  | some n => n != 0

/-- Embeds `_grep(line, pattern, flags, group)` with the compiled search
`re.search(pattern, ·, flags)` abstracted as a function: no match is a DROP;
with a truthy group the result is `mat and mat.group(group)`, i.e. the
group's captured text or the DROP sentinel when it did not participate;
otherwise `mat and line`, the original line. -/
def pyGrep (search : String → Option MatchObj) (line : String) (group : Option Nat) :
    Option String :=
  match search line with
  | none => none
  | some mat => if groupTruthy group then mat.grp (group.getD 0) else some line

/-- Embeds `_ungrep(line, pattern, flags)`: keep the line exactly when the
pattern does not match (the function falls off the end, returning `None`,
when it does). -/
def pyUngrep (search : String → Option MatchObj) (line : String) : Option String :=
  match search line with
  | none => some line
  | some _ => none

/-! ## Pipelines as heap objects

`ShellStream.filters` is a mutable Python list shared by reference, and the
claims about `copy`/`add_filters` are about that sharing.  The embedding
makes it explicit: a heap is a store of filter lists, a pipeline object holds
the identity of its underlying file and a reference into the store, and each
source method becomes a function from (heap, object) to (returned value,
heap). -/

/-- The store of allocated filter lists; a reference is an index into it. -/
structure FilterHeap where
  lists : List (List LineFilter)

/-- A `ShellStream` object: the identity of its underlying file
(`self.file`) and the reference to its filter list (`self.filters`). -/
structure PipeObj where
  fileId : Nat
  filtersRef : Nat
deriving DecidableEq

/-- Dereference a filter-list reference. -/
def FilterHeap.get (h : FilterHeap) (r : Nat) : List LineFilter :=
  h.lists.getD r []

/-- Embeds `ShellStream.__init__(file, *filters)`: `self.filters =
list(filters)` allocates a fresh list holding the given filters. -/
def shellStreamNew (h : FilterHeap) (fileId : Nat) (filters : List LineFilter) :
    PipeObj × FilterHeap :=
  (⟨fileId, h.lists.length⟩, ⟨h.lists ++ [filters]⟩)

namespace ShellStream

/-- Embeds `ShellStream.copy`: a new pipeline over the same file, built from
the current contents of this pipeline's filter list. -/
def copy (h : FilterHeap) (p : PipeObj) : PipeObj × FilterHeap :=
  shellStreamNew h p.fileId (h.get p.filtersRef)

/-- Embeds `ShellStream.add_filters`: extend this pipeline's own filter list
in place and return `self`. -/
def add_filters (h : FilterHeap) (p : PipeObj) (fs : List LineFilter) :
    PipeObj × FilterHeap :=
  (p, ⟨h.lists.set p.filtersRef (h.get p.filtersRef ++ fs)⟩)

/-- Embeds `ShellStream.snl`: append the trim-newline transformer, then the
optional extra transformer, and return `self`. -/
def snl (h : FilterHeap) (p : PipeObj) (extra : Option LineFilter) :
    PipeObj × FilterHeap :=
  let r := add_filters h p [snlF]
  match extra with
  | some f => add_filters r.2 r.1 [f]
  | none => r

/-- Embeds `ShellStream.nonblank`: append the drop-blank transformer, then
the optional extra transformer, and return `self`. -/
def nonblank (h : FilterHeap) (p : PipeObj) (extra : Option LineFilter) :
    PipeObj × FilterHeap :=
  let r := add_filters h p [nonblankF]
  match extra with
  | some f => add_filters r.2 r.1 [f]
  | none => r

/-- Embeds `ShellStream.strip`: append `lambda s: s.strip(chars)`. -/
def strip (h : FilterHeap) (p : PipeObj) (chars : Option String) :
    PipeObj × FilterHeap :=
  add_filters h p [fun s => some (pyStripChars chars s)]

/-- Embeds `ShellStream.replace`: append `lambda s: s.replace(old, new)`
(literal all-occurrence replacement delegated to `String.replace`). -/
def replace (h : FilterHeap) (p : PipeObj) (old new : String) :
    PipeObj × FilterHeap :=
  add_filters h p [fun s => some (s.replace old new)]

/-- Embeds `ShellStream.__call__(func, *args, **kwargs)`: append
`lambda s: func(s, *args, **kwargs)`, given here with its extra arguments
already applied. -/
def call (h : FilterHeap) (p : PipeObj) (f : LineFilter) : PipeObj × FilterHeap :=
  add_filters h p [f]

/-- Embeds `ShellStream.method`: the appended `lambda s: getattr(name,
*args, **kwargs)` ignores its line argument entirely, so it is a constant
function of the `getattr` lookup's result. -/
def method (h : FilterHeap) (p : PipeObj) (attrResult : Option String) :
    PipeObj × FilterHeap :=
  add_filters h p [fun _ => attrResult]

/-- Embeds `ShellStream.grep`: append the keep-matching transformer. -/
def grep (h : FilterHeap) (p : PipeObj) (search : String → Option MatchObj)
    (group : Option Nat) : PipeObj × FilterHeap :=
  add_filters h p [fun line => pyGrep search line group]

/-- Embeds `ShellStream.ungrep`: append the drop-matching transformer. -/
def ungrep (h : FilterHeap) (p : PipeObj) (search : String → Option MatchObj) :
    PipeObj × FilterHeap :=
  add_filters h p [fun line => pyUngrep search line]

/-- Embeds `ShellStream.sf`: append the split-and-format transformer. -/
def sf (h : FilterHeap) (p : PipeObj) (fmt : String) (sep : Option String)
    (ms : Int) : PipeObj × FilterHeap :=
  add_filters h p [sfF fmt sep ms]

/-- Embeds `ShellStream.sub`: its body is `pass`, so it appends nothing and
returns Python `None` — not the pipeline. -/
def sub (h : FilterHeap) (p : PipeObj) (pattern : String) :
    Option PipeObj × FilterHeap :=
  (none, h)

/-- Embeds `ShellStream.quote`: raise `TypeError` when the underlying file
is in binary mode — before anything is appended; otherwise optionally append
the strip transformer, then the shell-quoting collaborator `shlex.quote`
(abstracted as a function), and return `self` via `add_filters`. -/
def quote (h : FilterHeap) (p : PipeObj) (f : FileObj)
    (shlexQuote : String → String) (stripArg : Bool) :
    Except String (PipeObj × FilterHeap) :=
  if (is_binary f).getD false then .error ("file should be opened in text mode")
  else if stripArg then
    .ok (add_filters (strip h p none).2 (strip h p none).1
      [fun s => some (shlexQuote s)])
  else
    .ok (add_filters h p [fun s => some (shlexQuote s)])

end ShellStream

/-! ## Theorems -/

theorem apply_filters_append (fs gs : List LineFilter) (line : String) :
    apply_filters (fs ++ gs) line = (apply_filters fs line).bind (apply_filters gs) := by
  induction fs generalizing line with
  | nil => simp [apply_filters]
  | cons f fs ih =>
    cases hfl : f line with
    | none => simp [apply_filters, hfl]
    | some l => simp [apply_filters, hfl, ih]

theorem iter_lines_eq_filterMap (fs : List LineFilter) (ls : List String) :
    iter_lines fs ls = ls.filterMap (apply_filters fs) := by
  induction ls with
  | nil => simp [iter_lines]
  | cons l ls ih =>
    cases happ : apply_filters fs l <;>
      simp [iter_lines, happ, List.filterMap_cons, ih]

/-- C1: for every pipeline and raw line, the filter chain is applied strictly
in attachment order (splitting the chain anywhere, the second half runs on
the first half's output, and a DROP from the first half short-circuits the
whole chain, since `Option.bind` on `none` is `none`); iteration yields
exactly the final transformed value of every line that is not dropped, in
order. -/
theorem claim1_filter_chain (fs gs : List LineFilter) (line : String) (ls : List String) :
    apply_filters (fs ++ gs) line = (apply_filters fs line).bind (apply_filters gs)
      ∧ iter_lines fs ls = ls.filterMap (apply_filters fs) :=
  ⟨apply_filters_append fs gs line, iter_lines_eq_filterMap fs ls⟩

/-- C7: iterating a handle whose filter chain is empty yields exactly the raw
lines of the underlying resource, in order, unmodified — both through the
`__iter__` dispatch and through the (never taken, but agreeing) generator. -/
theorem claim7_empty_chain_raw (ls : List String) :
    shellIter [] ls = ls ∧ iter_lines [] ls = ls := by
  constructor
  · simp [shellIter]
  · induction ls with
    | nil => simp [iter_lines]
    | cons l ls ih => simp [iter_lines, apply_filters, ih]

/-- C2: exiting a handle's scope closes the underlying resource exactly when
its identity is in the ownership set; `open` on alias `(1, "w")` / `(2, "w")`
returns a handle wrapping the process-wide standard-output / standard-error
resource without touching the registry state; those identities are never in
the ownership set of a reachable state, so exiting such a handle never closes
the shared stream; and both `open` and exit preserve reachability. -/
theorem claim2_ownership (st : SysState) (h : StreamHandle) (hg : GoodState st) :
    streamOpen st (.num 1) "w" = (⟨stdoutId⟩, st)
      ∧ streamOpen st (.num 2) "w" = (⟨stderrId⟩, st)
      ∧ streamExit st ⟨stdoutId⟩ = st
      ∧ streamExit st ⟨stderrId⟩ = st
      ∧ (h.fileId ∉ st.opened → streamExit st h = st)
      ∧ (h.fileId ∈ st.opened → (streamExit st h).closed = h.fileId :: st.closed)
      ∧ (∀ fa m, GoodState (streamOpen st fa m).2)
      ∧ GoodState (streamExit st h) := by
  obtain ⟨hop, hnx⟩ := hg
  have hout : stdoutId ∉ st.opened := fun hmem => by
    have := hop _ hmem; simp [stdoutId] at this
  have herr : stderrId ∉ st.opened := fun hmem => by
    have := hop _ hmem; simp [stderrId] at this
  refine ⟨rfl, rfl, ?_, ?_, ?_, ?_, ?_, ?_⟩
  · simp [streamExit, hout]
  · simp [streamExit, herr]
  · intro hni; simp [streamExit, hni]
  · intro hmem; simp [streamExit, hmem]
  · intro fa m
    unfold streamOpen
    cases hpre : preopened fa m with
    | some fid => simp only [hpre]; exact ⟨hop, hnx⟩
    | none =>
      simp only [hpre]
      constructor
      · intro i hi
        rcases List.mem_cons.1 hi with hi | hi
        · omega
        · exact hop _ hi
      · show 3 ≤ st.nextId + 1
        omega
  · unfold streamExit
    split <;> exact ⟨hop, hnx⟩

/-- Witness for C2 at the initial registry state. -/
theorem claim2_ownership_witness :
    GoodState ⟨[], 3, []⟩
      ∧ streamExit ⟨[], 3, []⟩ ⟨stdoutId⟩ = ⟨[], 3, []⟩ := by
  have h := claim2_ownership ⟨[], 3, []⟩ ⟨stdoutId⟩ (by decide)
  exact ⟨by decide, h.2.2.1⟩

theorem head?_dropWhile (p : Char → Bool) (l : List Char) (c : Char) :
    (l.dropWhile p).head? = some c → p c = false := by
  induction l with
  | nil => intro h; simp [List.dropWhile] at h
  | cons a l ih =>
    intro h
    by_cases hpa : p a
    · rw [List.dropWhile_cons_of_pos hpa] at h
      exact ih h
    · rw [List.dropWhile_cons_of_neg hpa] at h
      simp only [List.head?_cons, Option.some_inj] at h
      subst h
      simpa using hpa

theorem stripList_eq_nil_iff (p : Char → Bool) (l : List Char) :
    stripList p l = [] ↔ ∀ c ∈ l, p c := by
  unfold stripList rstripList
  rw [List.reverse_eq_nil_iff, List.dropWhile_eq_nil_iff]
  constructor
  · intro h
    have hd : l.dropWhile p = [] := by
      cases hdl : l.dropWhile p with
      | nil => rfl
      | cons a t =>
        have ha : p a = false :=
          head?_dropWhile p l a (by rw [hdl]; rfl)
        have ha2 : p a = true := h a (by rw [hdl]; simp)
        rw [ha] at ha2; cases ha2
    exact List.dropWhile_eq_nil_iff.1 hd
  · intro h c hc
    rw [List.mem_reverse] at hc
    exact h c (List.dropWhile_subset p hc)

/-- C6 (amended): the trim-newline transformer strips **all** trailing
platform line-separator characters (not just one): its output, followed by
some run of newline characters, reassembles the input; the output never ends
in a newline; and a line with no trailing line-separator passes through
unchanged. -/
theorem claim6_snl_amended (s : String) :
    ∃ t, snlF s = some t
      ∧ (∃ k, s.toList = t.toList ++ List.replicate k '\n')
      ∧ (∀ c, t.toList.getLast? = some c → c ≠ '\n')
      ∧ (s.toList.getLast? ≠ some '\n' → t = s) := by
  refine ⟨pyRstrip os_linesep s, rfl, ?_, ?_, ?_⟩
  · set p : Char → Bool := fun c => os_linesep.toList.contains c with hp
    have hsplit : s.toList.reverse =
        s.toList.reverse.takeWhile p ++ s.toList.reverse.dropWhile p :=
      (List.takeWhile_append_dropWhile ..).symm
    have hall : ∀ c ∈ s.toList.reverse.takeWhile p, c = '\n' := by
      intro c hc
      have hpc := List.mem_takeWhile_imp hc
      simp [hp, os_linesep] at hpc
      exact hpc
    refine ⟨(s.toList.reverse.takeWhile p).length, ?_⟩
    have hrep : s.toList.reverse.takeWhile p =
        List.replicate (s.toList.reverse.takeWhile p).length '\n' :=
      List.eq_replicate_of_mem hall
    have hrev2 : (s.toList.reverse.takeWhile p).reverse =
        List.replicate (s.toList.reverse.takeWhile p).length '\n' := by
      conv_lhs => rw [hrep]
      rw [List.reverse_replicate]
    calc s.toList = s.toList.reverse.reverse := by rw [List.reverse_reverse]
      _ = (s.toList.reverse.takeWhile p ++ s.toList.reverse.dropWhile p).reverse := by
          rw [← hsplit]
      _ = (s.toList.reverse.dropWhile p).reverse ++ (s.toList.reverse.takeWhile p).reverse := by
          rw [List.reverse_append]
      _ = (pyRstrip os_linesep s).toList ++ List.replicate (s.toList.reverse.takeWhile p).length '\n' := by
          rw [hrev2]
          rfl
  · intro c hc
    have hh : ((s.toList.reverse.dropWhile (fun c => os_linesep.toList.contains c)).reverse).getLast? = some c := hc
    rw [List.getLast?_reverse] at hh
    have := head?_dropWhile _ _ _ hh
    simp [os_linesep] at this
    exact this
  · intro hlast
    show pyRstrip os_linesep s = s
    have hd : List.dropWhile (fun c => os_linesep.toList.contains c) s.toList.reverse
        = s.toList.reverse := by
      cases hrev : s.toList.reverse with
      | nil => simp
      | cons a t =>
        have ha : a ≠ '\n' := by
          intro hEq
          apply hlast
          rw [← List.head?_reverse, hrev, hEq]
          rfl
        have hpa : ¬ ((fun c => os_linesep.toList.contains c) a = true) := by
          simp [os_linesep]
          exact ha
        rw [List.dropWhile_cons_of_neg hpa]
    unfold pyRstrip rstripList
    rw [hd, List.reverse_reverse]
    cases s with
    | mk d => rfl

/-- Witness for C6 on a line with no trailing separator. -/
theorem claim6_snl_amended_witness :
    snlF "ab" = some "ab" ∧ ('b' : Char) ≠ '\n' := by
  obtain ⟨t, h1, h2, h3, h4⟩ := claim6_snl_amended "ab"
  have ht : t = "ab" := h4 (by decide)
  subst ht
  exact ⟨h1, h3 'b' (by decide)⟩

/-- C6 counterexample: on `"abc\n\n"` the trim-newline transformer does not
strip exactly one trailing line-separator (which would give `"abc\n"`) — it
strips both, giving `"abc"`. -/
theorem claim6_counterexample :
    snlF "abc\n\n" = some "abc" ∧ snlF "abc\n\n" ≠ some "abc\n" := by
  decide

/-- C5 (amended): the drop-blank transformer returns the DROP sentinel
exactly when every character of the line is whitespace; on a non-blank line
it yields the **stripped** content (not the original line), whether or not a
strip filter precedes it in the chain. -/
theorem claim5_nonblank_amended (s : String) :
    (nonblankF s = none ↔ s.toList.all Char.isWhitespace = true)
      ∧ (s.toList.all Char.isWhitespace = false → nonblankF s = some (pyStrip s))
      ∧ (∀ t, nonblankF s = some t → t = pyStrip s) := by
  have hempty : (pyStrip s).isEmpty = true ↔ s.toList.all Char.isWhitespace = true := by
    rw [String.isEmpty_iff]
    unfold pyStrip pyStripChars
    constructor
    · intro h
      have hl : stripList Char.isWhitespace s.toList = [] := by
        have := congrArg String.data h
        simpa using this
      rw [List.all_eq_true]
      exact (stripList_eq_nil_iff _ _).1 hl
    · intro h
      rw [List.all_eq_true] at h
      have hl : stripList Char.isWhitespace s.toList = [] :=
        (stripList_eq_nil_iff _ _).2 h
      rw [hl]
  refine ⟨?_, ?_, ?_⟩
  · unfold nonblankF
    constructor
    · intro h
      by_cases hc : (pyStrip s).isEmpty
      · exact hempty.1 hc
      · simp [hc] at h
    · intro h
      simp [hempty.2 h]
  · intro h
    unfold nonblankF
    have : (pyStrip s).isEmpty = false := by
      cases hie : (pyStrip s).isEmpty
      · rfl
      · rw [hempty.1 hie] at h; cases h
    simp [this]
  · intro t ht
    unfold nonblankF at ht
    cases hie : (pyStrip s).isEmpty with
    | true => rw [hie] at ht; simp at ht
    | false => rw [hie] at ht; simp at ht; exact ht.symm

/-- Witness for C5: a non-blank line is kept. -/
theorem claim5_nonblank_amended_witness :
    nonblankF " a " = some (pyStrip " a ") :=
  (claim5_nonblank_amended " a ").2.1 (by decide)

/-- C5 counterexample: on `"  x  "`, with no strip filter anywhere in the
chain, the drop-blank transformer yields `"x"`, not the original line
`"  x  "` unchanged. -/
theorem claim5_counterexample :
    apply_filters [nonblankF] "  x  " = some "x"
      ∧ apply_filters [nonblankF] "  x  " ≠ some "  x  " := by
  decide


/-- C3: quote-for-shell on a binary-mode handle fails immediately with the
TypeError — the returned value is the bare error, carrying no pipeline state,
so no strip or quoting transformer has been appended and no output line is
produced; on a text-mode handle (mode attribute present, non-empty, without
the binary marker) it does not raise. -/
theorem claim3_quote_binary (h : FilterHeap) (p : PipeObj) (f : FileObj)
    (sq : String → String) (st : Bool) :
    (is_binary f = some true →
        ShellStream.quote h p f sq st = .error ("file should be opened in text mode"))
      ∧ (∀ m, f.mode = some m → m.isEmpty = false → m.toList.contains 'b' = false →
          ∃ r, ShellStream.quote h p f sq st = .ok r) := by
  constructor
  · intro hb
    unfold ShellStream.quote
    rw [hb]
    rfl
  · intro m hm hne hnb
    have hib : is_binary f = some false := by
      unfold is_binary
      rw [hm]
      show (if m.isEmpty = true then f.probe else some (m.toList.contains 'b')) = some false
      rw [hne, hnb]
      simp
    unfold ShellStream.quote
    rw [hib]
    cases st
    · exact ⟨_, rfl⟩
    · exact ⟨_, rfl⟩

/-- Witness for C3: a handle opened with mode `"rb"` makes quote raise, one
opened with mode `"r"` does not. -/
theorem claim3_quote_binary_witness :
    is_binary ⟨some "rb", none⟩ = some true
      ∧ ShellStream.quote ⟨[[]]⟩ ⟨0, 0⟩ ⟨some "rb", none⟩ (fun s => s) true
          = .error ("file should be opened in text mode")
      ∧ ∃ r, ShellStream.quote ⟨[[]]⟩ ⟨0, 0⟩ ⟨some "r", none⟩ (fun s => s) true
          = .ok r := by
  have h1 := claim3_quote_binary ⟨[[]]⟩ ⟨0, 0⟩ ⟨some "rb", none⟩ (fun s => s) true
  have h2 := claim3_quote_binary ⟨[[]]⟩ ⟨0, 0⟩ ⟨some "r", none⟩ (fun s => s) true
  exact ⟨by decide, h1.1 (by decide), h2.2 "r" rfl (by decide) (by decide)⟩

/-- C8: `copy` returns a new pipeline over the same underlying file with an
independent filter list: the copy's list reference differs from the
original's; appending a filter to the copy alone leaves the original's list
unchanged and makes the copy's list the original's plus the new filter; and
appending to the original alone leaves the copy's list unchanged. -/
theorem claim8_copy_independent (h : FilterHeap) (p : PipeObj) (f3 : LineFilter)
    (hv : p.filtersRef < h.lists.length) :
    (ShellStream.copy h p).1.fileId = p.fileId
      ∧ (ShellStream.copy h p).1.filtersRef ≠ p.filtersRef
      ∧ FilterHeap.get (ShellStream.add_filters (ShellStream.copy h p).2
            (ShellStream.copy h p).1 [f3]).2 p.filtersRef
          = FilterHeap.get h p.filtersRef
      ∧ FilterHeap.get (ShellStream.add_filters (ShellStream.copy h p).2
            (ShellStream.copy h p).1 [f3]).2 (ShellStream.copy h p).1.filtersRef
          = FilterHeap.get h p.filtersRef ++ [f3]
      ∧ FilterHeap.get (ShellStream.add_filters (ShellStream.copy h p).2 p [f3]).2
            (ShellStream.copy h p).1.filtersRef
          = FilterHeap.get h p.filtersRef := by
  have hgetn : FilterHeap.get ⟨h.lists ++ [FilterHeap.get h p.filtersRef]⟩ h.lists.length
      = FilterHeap.get h p.filtersRef := by
    simp [FilterHeap.get, List.getD_eq_getElem?_getD, List.getElem?_concat_length]
  have hgetr : FilterHeap.get ⟨h.lists ++ [FilterHeap.get h p.filtersRef]⟩ p.filtersRef
      = FilterHeap.get h p.filtersRef := by
    simp [FilterHeap.get, List.getD_eq_getElem?_getD, List.getElem?_append_left hv]
  simp only [ShellStream.copy, shellStreamNew, ShellStream.add_filters]
  refine ⟨by trivial, by omega, ?_, ?_, ?_⟩
  · rw [hgetn]
    simp [FilterHeap.get, List.getD_eq_getElem?_getD,
      List.getElem?_set_ne (by omega : h.lists.length ≠ p.filtersRef),
      List.getElem?_append_left hv]
  · rw [hgetn]
    have hlen2 : h.lists.length
        < ((h.lists ++ [FilterHeap.get h p.filtersRef])).length := by simp
    simp [FilterHeap.get, List.getD_eq_getElem?_getD, List.getElem?_set_self hlen2]
  · rw [hgetr]
    simp [FilterHeap.get, List.getD_eq_getElem?_getD,
      List.getElem?_set_ne (by omega : p.filtersRef ≠ h.lists.length),
      List.getElem?_concat_length]

/-- Witness for C8: a pipeline with two filters, copied, a third filter
appended only to the copy — the original keeps two filters, the copy has
three. -/
theorem claim8_copy_independent_witness :
    (FilterHeap.get (ShellStream.add_filters
        (ShellStream.copy ⟨[[fun s => some s, fun s => some s]]⟩ ⟨0, 0⟩).2
        (ShellStream.copy ⟨[[fun s => some s, fun s => some s]]⟩ ⟨0, 0⟩).1
        [fun s => some s]).2 0).length = 2
      ∧ (FilterHeap.get (ShellStream.add_filters
          (ShellStream.copy ⟨[[fun s => some s, fun s => some s]]⟩ ⟨0, 0⟩).2
          (ShellStream.copy ⟨[[fun s => some s, fun s => some s]]⟩ ⟨0, 0⟩).1
          [fun s => some s]).2 1).length = 3 := by
  have hc := claim8_copy_independent ⟨[[fun s => some s, fun s => some s]]⟩ ⟨0, 0⟩
    (fun s => some s) (by decide)
  have h3 : FilterHeap.get (ShellStream.add_filters
      (ShellStream.copy ⟨[[fun s => some s, fun s => some s]]⟩ ⟨0, 0⟩).2
      (ShellStream.copy ⟨[[fun s => some s, fun s => some s]]⟩ ⟨0, 0⟩).1
      [fun s => some s]).2 0
      = FilterHeap.get ⟨[[fun s => some s, fun s => some s]]⟩ 0 := hc.2.2.1
  have h4 : FilterHeap.get (ShellStream.add_filters
      (ShellStream.copy ⟨[[fun s => some s, fun s => some s]]⟩ ⟨0, 0⟩).2
      (ShellStream.copy ⟨[[fun s => some s, fun s => some s]]⟩ ⟨0, 0⟩).1
      [fun s => some s]).2 1
      = FilterHeap.get ⟨[[fun s => some s, fun s => some s]]⟩ 0
          ++ [fun s => some s] := hc.2.2.2.1
  rw [h3, h4]
  exact ⟨rfl, rfl⟩

/-- C9 (amended): every filter-library constructor except `sub` returns the
very pipeline object it was invoked on (so calls chain), `quote` doing so
whenever it does not raise; the `sub` constructor's body is `pass`, so it
returns Python `None` instead of the pipeline. -/
theorem claim9_chaining (h : FilterHeap) (p : PipeObj) (e : Option LineFilter)
    (f : LineFilter) (fo : FileObj) (sq : String → String) (st : Bool)
    (fmt pat : String) (sep : Option String) (ms : Int) (chars : Option String)
    (old new : String) (search : String → Option MatchObj) (g : Option Nat)
    (ar : Option String) :
    (ShellStream.snl h p e).1 = p
      ∧ (ShellStream.nonblank h p e).1 = p
      ∧ (ShellStream.strip h p chars).1 = p
      ∧ (ShellStream.replace h p old new).1 = p
      ∧ (ShellStream.call h p f).1 = p
      ∧ (ShellStream.method h p ar).1 = p
      ∧ (ShellStream.grep h p search g).1 = p
      ∧ (ShellStream.ungrep h p search).1 = p
      ∧ (ShellStream.sf h p fmt sep ms).1 = p
      ∧ (ShellStream.add_filters h p [f]).1 = p
      ∧ (∀ r, ShellStream.quote h p fo sq st = .ok r → r.1 = p)
      ∧ (ShellStream.sub h p pat).1 = none := by
  refine ⟨?_, ?_, rfl, rfl, rfl, rfl, rfl, rfl, rfl, rfl, ?_, rfl⟩
  · cases e <;> rfl
  · cases e <;> rfl
  · intro r hr
    unfold ShellStream.quote at hr
    split at hr
    · simp at hr
    · split at hr
      · injection hr with h2
        rw [← h2]
        exact rfl
      · injection hr with h2
        rw [← h2]
        exact rfl

/-- Witness for C9: on a concrete pipeline, `sub` returns `None`, `strip`
returns the pipeline itself, and a non-raising `quote` returns the pipeline
itself. -/
theorem claim9_chaining_witness :
    (ShellStream.sub ⟨[[]]⟩ ⟨0, 0⟩ "x").1 = none
      ∧ (ShellStream.strip ⟨[[]]⟩ ⟨0, 0⟩ none).1 = ⟨0, 0⟩
      ∧ (ShellStream.quote ⟨[[]]⟩ ⟨0, 0⟩ ⟨some "r", none⟩ (fun s => s) true).map
          Prod.fst = .ok ⟨0, 0⟩ := by
  have hc := claim9_chaining ⟨[[]]⟩ ⟨0, 0⟩ none (fun s => some s) ⟨some "r", none⟩
    (fun s => s) true "" "x" none (-1) none "" "" (fun _ => none) none none
  refine ⟨hc.2.2.2.2.2.2.2.2.2.2.2, hc.2.2.1, ?_⟩
  exact congrArg Except.ok (hc.2.2.2.2.2.2.2.2.2.2.1 _ rfl)

/-- C9 counterexample: the claim includes `substitute/sub` among the
constructors returning the pipeline itself, but `sub` (invoked on the
concrete pipeline object `⟨0, 0⟩`) returns `None`, not that pipeline. -/
theorem claim9_counterexample :
    (ShellStream.sub ⟨[[]]⟩ ⟨0, 0⟩ "x").1 = none
      ∧ (ShellStream.sub ⟨[[]]⟩ ⟨0, 0⟩ "x").1 ≠ some ⟨0, 0⟩ := by
  exact ⟨rfl, by decide⟩

/-- C10: for the keep-matching transformer with a truthy `group` argument —
when the pattern matches the line but the selected group did not participate
(`mat.group(group)` is Python `None`), the transformer returns the DROP
sentinel and iteration excludes the line even though the pattern matched; and
`group=0` is falsy in Python, so it behaves exactly as no group at all,
keeping the original line text (not the whole-match text). -/
theorem claim10_grep_group (search : String → Option MatchObj) (line : String)
    (g : Nat) (mat : MatchObj) :
    (search line = some mat → g ≠ 0 → mat.grp g = none →
        pyGrep search line (some g) = none
          ∧ iter_lines [fun l => pyGrep search l (some g)] [line] = [])
      ∧ pyGrep search line (some 0) = pyGrep search line none
      ∧ (search line = some mat → pyGrep search line (some 0) = some line) := by
  refine ⟨?_, ?_, ?_⟩
  · intro hs hg hgrp
    have h1 : pyGrep search line (some g) = none := by
      unfold pyGrep
      rw [hs]
      show (if groupTruthy (some g) then mat.grp ((some g).getD 0) else some line) = none
      have hgt : groupTruthy (some g) = true := by
        unfold groupTruthy
        simp
        exact hg
      rw [if_pos hgt]
      exact hgrp
    refine ⟨h1, ?_⟩
    show iter_lines [fun l => pyGrep search l (some g)] [line] = []
    rw [iter_lines]
    have h2 : apply_filters [fun l => pyGrep search l (some g)] line = none := by
      show (match pyGrep search line (some g) with
        | none => none
        | some l => apply_filters [] l) = none
      rw [h1]
    rw [h2]
    rfl
  · unfold pyGrep
    cases hsl : search line with
    | none => rfl
    | some m => rfl
  · intro hs
    unfold pyGrep
    rw [hs]
    rfl

/-- Witness for C10: a search that matches every line, whose group 1 never
participates — the line is dropped with `group=1`, kept unchanged with
`group=0`. -/
theorem claim10_grep_group_witness :
    pyGrep (fun _ => some ⟨fun n => if n = 0 then some "ab" else none⟩) "xx" (some 1)
        = none
      ∧ pyGrep (fun _ => some ⟨fun n => if n = 0 then some "ab" else none⟩) "xx" (some 0)
          = some "xx" := by
  have hc := claim10_grep_group
    (fun _ => some ⟨fun n => if n = 0 then some "ab" else none⟩) "xx" 1
    ⟨fun n => if n = 0 then some "ab" else none⟩
  exact ⟨(hc.1 rfl (by decide) rfl).1, hc.2.2 rfl⟩

theorem padParts_length (parts : List String) (m : Nat) :
    (padParts parts m).length = max m parts.length := by
  unfold padParts
  split
  · simp only [List.length_append, List.length_replicate]
    omega
  · omega

theorem formatAux_ok_mono (args args2 : List String) (hlen : args.length ≤ args2.length) :
    ∀ fuel l t, formatAux args fuel l = .ok t → ∃ t2, formatAux args2 fuel l = .ok t2 := by
  intro fuel l
  refine formatAux.induct args
    (fun fuel l => ∀ t, formatAux args fuel l = .ok t → ∃ t2, formatAux args2 fuel l = .ok t2)
    ?_ ?_ ?_ ?_ ?_ ?_ ?_ ?_ ?_ ?_ ?_ ?_ ?_ ?_ ?_ ?_ fuel l
  · intro x t hok
    simp [formatAux] at hok
  · intro n t hok
    exact ⟨[], rfl⟩
  · intro fuel t hok
    simp [formatAux] at hok
  · intro fuel rest2 t hrec ih t' hok
    obtain ⟨t4, ht4⟩ := ih t hrec
    exact ⟨'{' :: t4, by simp [formatAux, ht4]⟩
  · intro fuel rest2 e hrec ih t hok
    simp [formatAux, hrec] at hok
  · intro fuel c2 rest2 hc2 c3 tail hdrop hgood a hget t hrec ih t' hok
    have hlt : natOfDigits (List.takeWhile Char.isDigit (c2 :: rest2)) < args.length := by
      by_contra hge
      push_neg at hge
      rw [List.getElem?_eq_none hge] at hget
      simp at hget
    have hlt2 : natOfDigits (List.takeWhile Char.isDigit (c2 :: rest2)) < args2.length :=
      lt_of_lt_of_le hlt hlen
    obtain ⟨a2, hget2⟩ : ∃ a2,
        args2[natOfDigits (List.takeWhile Char.isDigit (c2 :: rest2))]? = some a2 := by
      cases hg2 : args2[natOfDigits (List.takeWhile Char.isDigit (c2 :: rest2))]? with
      | none =>
        rw [List.getElem?_eq_none_iff] at hg2
        omega
      | some a2 => exact ⟨a2, rfl⟩
    obtain ⟨t4, ht4⟩ := ih t hrec
    exact ⟨a2.toList ++ t4, by simp [formatAux, hc2, hdrop, hgood, hget2, ht4]⟩
  · intro fuel c2 rest2 hc2 c3 tail hdrop hgood a hget e hrec ih t hok
    simp [formatAux, hc2, hdrop, hgood, hget, hrec] at hok
  · intro fuel c2 rest2 hc2 c3 tail hdrop hgood hget t hok
    simp [formatAux, hc2, hdrop, hgood, hget] at hok
  · intro fuel c2 rest2 hc2 c3 tail hdrop hbad t hok
    simp [formatAux, hc2, hdrop] at hok
    have hbad2 : ¬(c3 = '}' ∧ c2.isDigit = true) := by
      intro hand
      exact hbad ⟨hand.1, by simp [List.takeWhile_cons, hand.2]⟩
    rw [if_neg hbad2] at hok
    simp at hok
  · intro fuel c2 rest2 hc2 hdrop t hok
    simp [formatAux, hc2, hdrop] at hok
  · intro fuel tail t hrec hne ih t' hok
    obtain ⟨t4, ht4⟩ := ih t hrec
    exact ⟨'}' :: t4, by simp [formatAux, hne, ht4]⟩
  · intro fuel tail e hrec hne ih t hok
    simp [formatAux, hne, hrec] at hok
  · intro fuel c3 tail hc3 hne t hok
    simp [formatAux, hne, hc3] at hok
  · intro fuel hne t hok
    simp [formatAux, hne] at hok
  · intro fuel c rest hc hc9 t hrec ih t' hok
    obtain ⟨t4, ht4⟩ := ih t hrec
    exact ⟨c :: t4, by simp [formatAux, hc, hc9, ht4]⟩
  · intro fuel c rest hc hc9 e hrec ih t hok
    simp [formatAux, hc, hc9, hrec] at hok

/-- C4 (amended): split-and-format splits the line on the separator and pads
the parts with empty strings up to `max(count of brace characters in the
template, 8)` entries; for a template whose positional placeholders all
resolve against that many arguments (every index below the bound), splitting
and formatting succeeds on every line — but a placeholder index at or above
the bound still raises the interpreter's IndexError. -/
theorem claim4_sf_amended (line fmt : String) (sep : Option String) (ms : Int)
    (hsep : sep = none ∨ ∃ sp, sep = some sp ∧ sp.isEmpty = false)
    (hfmt : ∃ t0, formatList (List.replicate (max (braceCount fmt) 8) "") fmt.toList
      = .ok t0) :
    (∃ out, split_format line fmt sep ms = .ok out)
      ∧ ∀ ps m, (padParts ps m).length = max m ps.length := by
  refine ⟨?_, fun ps m => padParts_length ps m⟩
  obtain ⟨t0, ht0⟩ := hfmt
  obtain ⟨parts, hps⟩ : ∃ parts, pySplit line sep ms = .ok parts := by
    rcases hsep with hnone | ⟨sp, hsp, hne⟩
    · subst hnone
      exact ⟨_, rfl⟩
    · subst hsp
      simp [pySplit, hne]
  have hlen : (List.replicate (max (braceCount fmt) 8) "").length
      ≤ (padParts parts (max (braceCount fmt) 8)).length := by
    rw [List.length_replicate, padParts_length]
    omega
  have ht0' : formatAux (List.replicate (max (braceCount fmt) 8) "")
      (fmt.toList.length + 1) fmt.toList = .ok t0 := ht0
  obtain ⟨t2, ht2⟩ := formatAux_ok_mono _ _ hlen (fmt.toList.length + 1) fmt.toList t0 ht0'
  refine ⟨⟨t2⟩, ?_⟩
  unfold split_format
  rw [hps]
  show (match formatList (padParts parts (max (braceCount fmt) 8)) fmt.toList with
    | .ok cs => (.ok (⟨cs⟩ : String) : Except String String)
    | .error e => .error e) = .ok ⟨t2⟩
  have ht2' : formatList (padParts parts (max (braceCount fmt) 8)) fmt.toList = .ok t2 := ht2
  rw [ht2']

/-- Witness for C4: the spec's own example — template with two placeholders
on a one-part line formats to `"a-"`, the missing part padded, no error. -/
theorem claim4_sf_amended_witness :
    split_format "a" "{0}-{1}" (some ",") (-1) = .ok "a-" := by
  obtain ⟨out, hout⟩ := (claim4_sf_amended "a" "{0}-{1}" (some ",") (-1)
    (Or.inr ⟨",", rfl, by decide⟩) ⟨"-".toList, by rfl⟩).1
  rw [hout]
  have h2 : split_format "a" "{0}-{1}" (some ",") (-1) = .ok "a-" := by rfl
  rw [hout] at h2
  simp at h2
  rw [h2]

/-- C4 counterexample: the claim promises that padding lets every positional
placeholder resolve, never an index error; but the template `"{8}"` has one
brace character, the parts are padded to `max(1, 8) = 8` entries (indices 0
through 7), and the placeholder index 8 raises an IndexError on input
`"a"`. -/
theorem claim4_counterexample :
    split_format "a" "{8}" (some ",") (-1)
      = .error ("IndexError: Replacement index out of range") := by
  rfl
